import Mathlib

/-!
Verification development for the TiramisuASR repository (the DeepSpeech2
training driver `examples/deepspeech2/train_ds2.py` and the CTC smoke test
`tests/test_ctc.py`).

Shallow embedding: the CLI argument handling, dataset-construction branching
and the training driver's event trace are translated directly from
`train_ds2.py`.  Library components that the two scripts call but whose code
is not part of the excerpt (configuration merging, text/speech featurizers,
checkpoint pruning, the CTC model's decoding entry points) are modelled from
the specification, as marked in their doc comments.
-/

/-! ## CLI arguments (from `train_ds2.py`, `main`) -/

/-- Python's truthiness of a string: `bool(s)` is `True` iff `s` is non-empty.
This is what `argparse` applies when an argument is declared `type=bool`. -/
def pyBool (s : String) : Bool := s != ""

/-- Accumulate decimal digits; any non-digit character fails. -/
def parseDigitsAux : List Char → Nat → Option Nat
  | [], acc => some acc
  | c :: cs, acc =>
    if c.isDigit then parseDigitsAux cs (acc * 10 + (c.toNat - 48)) else none

/-- A non-empty string of decimal digits as a number. -/
def parseDigits : List Char → Option Nat
  | [] => none
  | c :: cs => parseDigitsAux (c :: cs) 0

/-- Python's `int(s)` on a decimal numeral with an optional leading minus
sign, as `argparse` applies it for an argument declared `type=int`. -/
def pyInt (s : String) : Option Int :=
  match s.data with
  | '-' :: rest => (parseDigits rest).map (fun n => -(n : Int))
  | cs => (parseDigits cs).map (fun n => (n : Int))

/-- The parsed argument record of the training script; field defaults are the
`default=` values of the seven `add_argument` calls.  The source calls the
second field `export` (a Lean keyword, hence `export_`). -/
structure Args where
  config : String
  export_ : Option String
  mixed_precision : Bool
  save_weights : Bool
  max_ckpts : Int
  eval_train_ratio : Int
  tfrecords : Bool
deriving DecidableEq

/-- The bundled YAML configuration shipped next to the training script:
`DEFAULT_YAML = os.path.join(dirname(__file__), "configs", "vivos.yml")`. -/
def DEFAULT_YAML : String := "examples/deepspeech2/configs/vivos.yml"

/-- The defaults of the seven flags, from the `default=` keyword of each
`add_argument` call in `train_ds2.py`. -/
def defaultArgs : Args :=
  { config := DEFAULT_YAML
    export_ := none
    mixed_precision := false
    save_weights := false
    max_ckpts := 10
    eval_train_ratio := 1
    tfrecords := false }

/-- One supplied command-line pair `(flag, value)` applied to the argument
record: each branch mirrors one `add_argument` declaration (`--config` (`-c`)
and `--export` (`-e`) are `type=str`, `--mixed_precision`, `--save_weights` and
`--tfrecords` are `type=bool`, `--max_ckpts` and `--eval_train_ratio` are
`type=int`); an unknown flag is rejected. -/
def applyArg (a : Args) (flag v : String) : Option Args :=
  if flag = "--config" ∨ flag = "-c" then some { a with config := v }
  else if flag = "--export" ∨ flag = "-e" then some { a with export_ := some v }
  else if flag = "--mixed_precision" then some { a with mixed_precision := pyBool v }
  else if flag = "--save_weights" then some { a with save_weights := pyBool v }
  else if flag = "--max_ckpts" then (pyInt v).map (fun n => { a with max_ckpts := n })
  else if flag = "--eval_train_ratio" then
    (pyInt v).map (fun n => { a with eval_train_ratio := n })
  else if flag = "--tfrecords" then some { a with tfrecords := pyBool v }
  else none

/-- Fold the supplied `(flag, value)` pairs over an argument record. -/
def parseArgsFrom (a : Args) : List (String × String) → Option Args
  | [] => some a
  | (f, v) :: rest =>
    match applyArg a f v with
    | some a2 => parseArgsFrom a2 rest
    | none => none

/-- The parse `parser.parse_args()`: start from the declared defaults and
apply every flag supplied on the command line. -/
def parseArgs (l : List (String × String)) : Option Args := parseArgsFrom defaultArgs l

/-- The long and short flag names accepted by the parser of `train_ds2.py`. -/
def acceptedFlags : List String :=
  ["--config", "-c", "--export", "-e", "--mixed_precision", "--save_weights",
   "--max_ckpts", "--eval_train_ratio", "--tfrecords"]

/-! ## Dataset construction (from `train_ds2.py`, `main`) -/

/-- The keys `main` reads from `config["learning_config"]["dataset_config"]`. -/
structure DatasetConfig where
  train_paths : List String
  eval_paths : List String
  tfrecords_dir : String
deriving DecidableEq

/-- Which dataset class `main` instantiates. -/
inductive DatasetKind where
  | tfrecord
  | slice
deriving DecidableEq

/-- The constructor arguments of an `ASRTFRecordDataset` / `ASRSliceDataset`
instantiation as they appear in `main` (featurizer arguments omitted: both
branches pass the same two featurizers). -/
structure ASRDataset where
  kind : DatasetKind
  data_paths : List String
  tfrecords_dir : Option String
  stage : String
  augmentations : Option String
  shuffle : Bool
deriving DecidableEq

/-- The `if args.tfrecords:` branching of `main` that builds
`(train_dataset, eval_dataset)`, argument for argument from the source:
the tfrecord branch passes `train_paths`/`"train"`/`shuffle=True` with
augmentations and `eval_paths`/`"eval"`/`shuffle=False`; the slice branch
passes `eval_paths`/`"train"`/`shuffle=True` for BOTH datasets,
augmentations only on the first. -/
def buildDatasets (tfrecords : Bool) (ds : DatasetConfig) (augs : String) :
    ASRDataset × ASRDataset :=
  if tfrecords then
    ({ kind := DatasetKind.tfrecord
       data_paths := ds.train_paths
       tfrecords_dir := some ds.tfrecords_dir
       stage := "train"
       augmentations := some augs
       shuffle := true },
     { kind := DatasetKind.tfrecord
       data_paths := ds.eval_paths
       tfrecords_dir := some ds.tfrecords_dir
       stage := "eval"
       augmentations := none
       shuffle := false })
  else
    ({ kind := DatasetKind.slice
       data_paths := ds.eval_paths
       tfrecords_dir := none
       stage := "train"
       augmentations := some augs
       shuffle := true },
     { kind := DatasetKind.slice
       data_paths := ds.eval_paths
       tfrecords_dir := none
       stage := "train"
       augmentations := none
       shuffle := true })

/-! ## The training driver's event trace (from `train_ds2.py`, `main`) -/

/-- The externally visible steps `main` performs, in order. -/
inductive Ev where
  | clearSession
  | loadConfig (defaultPath userPath : String)
  | createSpeechFeaturizer
  | createTextFeaturizer
  | setSeed (n : Nat)
  | setMixedPrecisionPolicy
  | constructDatasets (train_ds eval_ds : ASRDataset)
  | createTrainer (mixed : Bool)
  | buildModel
  | compileModel (max_to_keep : Int)
  | fitModel (ratio : Int)
  | saveWeightsTo (path : String)
  | saveModelTo (path : String)
deriving DecidableEq

/-- The straight-line body of `main` as an event trace: clear the session,
load/merge the configuration, build the two featurizers, `tf.random.set_seed(2020)`,
optionally enable the mixed-precision policy, build the two datasets, create
the trainer, build and compile the model, fit, and optionally export. -/
def mainTrace (args : Args) (ds : DatasetConfig) (augs : String) : List Ev :=
  [Ev.clearSession, Ev.loadConfig DEFAULT_YAML args.config, Ev.createSpeechFeaturizer,
   Ev.createTextFeaturizer, Ev.setSeed 2020]
  ++ (if args.mixed_precision then [Ev.setMixedPrecisionPolicy] else [])
  ++ [Ev.constructDatasets (buildDatasets args.tfrecords ds augs).1
        (buildDatasets args.tfrecords ds augs).2,
      Ev.createTrainer args.mixed_precision, Ev.buildModel,
      Ev.compileModel args.max_ckpts, Ev.fitModel args.eval_train_ratio]
  ++ (match args.export_ with
      | none => []
      | some p => if args.save_weights then [Ev.saveWeightsTo p] else [Ev.saveModelTo p])

/-- The seeds set by `Ev.setSeed` events of a trace, in order. -/
def seedEvents (tr : List Ev) : List Nat :=
  tr.filterMap (fun e =>
    match e with
    | Ev.setSeed n => some n
    | _ => none)

/-- Modelled from the spec: the framework's global seeded pseudo-random
generator (`tf.random`), not under `src/`.  Its draw sequence is a pure
function of the seed; the concrete formula is a placeholder linear
congruential generator, which suffices for determinism properties. -/
def frameworkDraws (seed : Nat) : Nat → Nat :=
  fun n => (seed * 1103515245 + 12345 * (n + 1)) % 2 ^ 31

/-- The seed governing the generator after a trace ran: the last `setSeed`. -/
def seededWith (tr : List Ev) : Nat := (seedEvents tr).getLastD 0

/-- The random sequence a run of `main` draws from the seeded generator. -/
def runRandomSequence (args : Args) (ds : DatasetConfig) (augs : String) : Nat → Nat :=
  frameworkDraws (seededWith (mainTrace args ds augs))

/-! ## Configuration loader (spec-modelled: `UserConfig` is not under `src/`) -/

/-- First-match lookup of a key in an association list of settings. -/
def lookupKey {V : Type} : List (String × V) → String → Option V
  | [], _ => none
  | p :: ps, k => if p.1 = k then some p.2 else lookupKey ps k

/-- Modelled from the spec: `tiramisu_asr.configs.user_config.UserConfig`, the
configuration loader, is not under `src/` (only its call in `main` is).  Per
the spec it accepts a default settings file and an optional override file and
merges them per key: a key present in the override takes the override's value,
a key absent from the override takes the default's value, and a missing
override file silently yields the defaults. -/
def UserConfig {V : Type} (defaults : List (String × V))
    (overrideFile : Option (List (String × V))) (k : String) : Option V :=
  match overrideFile with
  | none => lookupKey defaults k
  | some ov =>
    match lookupKey ov k with
    | some v => some v
    | none => lookupKey defaults k

/-! ## Text featurizer (spec-modelled: `TextFeaturizer` is not under `src/`) -/

/-- Index of the first occurrence of a token in the vocabulary (the token-to-id
mapping; total on vocabulary tokens). -/
def indexOfTok : List String → String → Nat
  | [], _ => 0
  | v :: vs, t => if v = t then 0 else indexOfTok vs t + 1

/-- Modelled from the spec: `TextFeaturizer.encode` is not under `src/`.  Per
the spec it maps each token of a text to its integer id under the fixed
vocabulary bijection; a text is its sequence of tokens. -/
def encode (vocab : List String) (text : List String) : List Nat :=
  text.map (indexOfTok vocab)

/-- Modelled from the spec: `TextFeaturizer.decode` is not under `src/`.  Per
the spec it maps a sequence of ids back to tokens under the same bijection;
an id outside `[0, num_classes)` has no token, so decoding it fails. -/
def decodeIds (vocab : List String) : List Nat → Option (List String)
  | [] => some []
  | i :: is =>
    match vocab[i]?, decodeIds vocab is with
    | some t, some ts => some (t :: ts)
    | _, _ => none

/-- Modelled from the spec: `num_classes` of the text featurizer, the size of
the vocabulary (ids range over `[0, num_classes)`). -/
def num_classes (vocab : List String) : Nat := vocab.length

/-! ## Checkpoint manager (spec-modelled: the trainer's checkpoint manager is
not under `src/`; `CTCTrainer.compile` only passes `max_to_keep=args.max_ckpts`) -/

/-- The last `k` elements of a list (the most recent ones). -/
def lastK {α : Type} (k : Nat) (l : List α) : List α := l.drop (l.length - k)

/-- Modelled from the spec: one checkpoint save followed by pruning to the
`max_to_keep = max_ckpts` most recent checkpoints; the manager's code is not
under `src/`. -/
def saveCheckpoint (k : Nat) (kept : List Nat) (c : Nat) : List Nat :=
  lastK k (kept ++ [c])

/-- The checkpoints retained after saving a given sequence, starting empty. -/
def saveAll (k : Nat) (cs : List Nat) : List Nat := cs.foldl (saveCheckpoint k) []

/-- Checkpoint numbers `ckpt-1 .. ckpt-N` produced by `N` saves. -/
def ckptNames (n : Nat) : List Nat := (List.range n).map (· + 1)

/-! ## Speech featurizer (spec-modelled: `TFSpeechFeaturizer` is not under
`src/`; only its configuration keys appear, in `tests/test_ctc.py`) -/

/-- The `speech_config` keys visible in `tests/test_ctc.py`. -/
structure SpeechConfig where
  sample_rate : Nat
  frame_ms : Nat
  stride_ms : Nat
  num_feature_bins : Nat
  delta : Bool
  delta_delta : Bool
  pitch : Bool
deriving DecidableEq

/-- Number of channels of the feature tensor: the base feature plus one
channel per enabled optional stream (`delta`, `delta_delta`, `pitch`). -/
def channelCount (cfg : SpeechConfig) : Nat :=
  1 + (if cfg.delta then 1 else 0) + (if cfg.delta_delta then 1 else 0)
    + (if cfg.pitch then 1 else 0)

/-- Modelled from the spec: `compute_feature_dim() -> (frequency_bins,
channels)`, a pure function of the configuration; the featurizer's code is
not under `src/`. -/
def compute_feature_dim (cfg : SpeechConfig) : Nat × Nat :=
  (cfg.num_feature_bins, channelCount cfg)

/-- The featurizer object; per the spec its only state is its configuration,
fixed at construction. -/
structure TFSpeechFeaturizer where
  config : SpeechConfig
deriving DecidableEq

/-- A call of `compute_feature_dim` on the featurizer object, state-passing:
it returns the pair and the featurizer as the call leaves it. -/
def compute_feature_dim_call (st : TFSpeechFeaturizer) :
    (Nat × Nat) × TFSpeechFeaturizer :=
  (compute_feature_dim st.config, st)

/-- Window length in samples, from `frame_ms` and `sample_rate`. -/
def frameLen (cfg : SpeechConfig) : Nat := cfg.sample_rate * cfg.frame_ms / 1000

/-- Hop length in samples, from `stride_ms` and `sample_rate`. -/
def frameStep (cfg : SpeechConfig) : Nat := cfg.sample_rate * cfg.stride_ms / 1000

/-- Number of full windows available in a signal of the given length. -/
def numFrames (cfg : SpeechConfig) (sigLen : Nat) : Nat :=
  if sigLen < frameLen cfg then 0 else (sigLen - frameLen cfg) / frameStep cfg + 1

/-- Framing of a raw signal: window `i` starts at `i * frameStep`. -/
def frames (cfg : SpeechConfig) (signal : List Int) : List (List Int) :=
  (List.range (numFrames cfg signal.length)).map
    (fun i => (signal.drop (i * frameStep cfg)).take (frameLen cfg))

/-- Modelled from the spec: the per-bin, per-channel value of one frame.  The
actual transform (`logfbank` and friends) is external DSP code not under
`src/`; the spec fixes only the shape contract, so the value is a simple
frame-energy-style function that keeps the tensor concrete. -/
def binValue (fr : List Int) (j ch : Nat) : Int :=
  fr.foldl (· + ·) 0 + Int.ofNat j + Int.ofNat ch

/-- Modelled from the spec: `extract(signal) -> feature_tensor` of shape
`[time, frequency_bins, channels]`; framing from `frame_ms`/`stride_ms`, a
per-frame transform into `num_feature_bins` bins with `channelCount`
channels. -/
def extract (cfg : SpeechConfig) (signal : List Int) : List (List (List Int)) :=
  (frames cfg signal).map
    (fun fr =>
      (List.range cfg.num_feature_bins).map
        (fun j => (List.range (channelCount cfg)).map (fun ch => binValue fr j ch)))

/-! ## CTC model decoding entry points (spec-modelled: `CtcModel` is not under
`src/`; `tests/test_ctc.py` only calls them) -/

/-- The model object: trainable parameters plus the attached featurizers
(`add_featurizers` in the test attaches a speech and a text featurizer). -/
structure CtcModel where
  weights : List Int
  speech_config : SpeechConfig
  vocab : List String
  blank_at_zero : Bool
deriving DecidableEq

/-- Modelled from the spec: the acoustic forward pass producing per-timestep
class logits.  The network internals (DeepSpeech2 layers) are framework code
not under `src/`; modelled as a pure transform of weights and features. -/
def forwardLogits (m : CtcModel) (features : List (List Int)) : List (List Int) :=
  features.map (fun frame => m.weights.map (fun w => w * frame.foldl (· + ·) 0))

/-- Index of the largest logit, scanning left to right. -/
def argmaxAux : List Int → Nat → Nat → Int → Nat
  | [], _, bi, _ => bi
  | x :: xs, i, bi, bv => if bv < x then argmaxAux xs (i + 1) i x else argmaxAux xs (i + 1) bi bv

/-- Greedy per-timestep class choice. -/
def argmaxIdx (l : List Int) : Nat :=
  match l with
  | [] => 0
  | x :: xs => argmaxAux xs 1 0 x

/-- CTC collapse of consecutive repeated ids. -/
def collapseRepeats : List Nat → List Nat
  | [] => []
  | [x] => [x]
  | x :: y :: rest =>
    if x = y then collapseRepeats (y :: rest) else x :: collapseRepeats (y :: rest)

/-- The id of the blank symbol: index 0 when `blank_at_zero`, else the last. -/
def blankIdx (m : CtcModel) : Nat := if m.blank_at_zero then 0 else m.vocab.length - 1

/-- Modelled from the spec: greedy argmax CTC decoding — argmax per timestep,
collapse repeats, drop blanks, map ids to tokens. -/
def greedyDecode (m : CtcModel) (features : List (List Int)) : List String :=
  ((collapseRepeats ((forwardLogits m features).map argmaxIdx)).filter
      (fun i => i ≠ blankIdx m)).filterMap (fun i => m.vocab[i]?)

/-- Modelled from the spec: `CtcModel.recognize`, an inference-only pure
function — features in, hypothesis out, model state returned unchanged. -/
def recognize (m : CtcModel) (features : List (List Int)) : List String × CtcModel :=
  (greedyDecode m features, m)

/-- Modelled from the spec: `CtcModel.recognize_beam`.  Beam-search internals
live in an external library and are outside the spec's scope; modelled as a
pure decode of the same logits (the `lm` flag selects LM rescoring and does
not affect model state). -/
def recognize_beam (m : CtcModel) (features : List (List Int)) (lm : Bool) :
    List String × CtcModel :=
  (if lm then greedyDecode m features else greedyDecode m features, m)

/-- Modelled from the spec: `CtcModel.recognize_tflite`, the on-device variant
taking a raw signal and featurizing it with the attached speech featurizer. -/
def recognize_tflite (m : CtcModel) (signal : List Int) : List String × CtcModel :=
  (greedyDecode m ((extract m.speech_config signal).map (fun fr => fr.map List.sum)), m)

/-- Modelled from the spec: `CtcModel.recognize_beam_tflite`, the on-device
beam variant on a raw signal. -/
def recognize_beam_tflite (m : CtcModel) (signal : List Int) : List String × CtcModel :=
  (greedyDecode m ((extract m.speech_config signal).map (fun fr => fr.map List.sum)), m)

/-- One decoding call as issued by `tests/test_ctc.py`. -/
inductive DecodeCall where
  | greedy (features : List (List Int))
  | beam (features : List (List Int)) (lm : Bool)
  | greedyTflite (signal : List Int)
  | beamTflite (signal : List Int)
deriving DecidableEq

/-- Dispatch one decoding call on the model. -/
def runDecodeCall (m : CtcModel) : DecodeCall → List String × CtcModel
  | DecodeCall.greedy f => recognize m f
  | DecodeCall.beam f lm => recognize_beam m f lm
  | DecodeCall.greedyTflite s => recognize_tflite m s
  | DecodeCall.beamTflite s => recognize_beam_tflite m s

/-- The model state after a sequence of decoding calls. -/
def runDecodeCalls (m : CtcModel) : List DecodeCall → CtcModel
  | [] => m
  | c :: cs => runDecodeCalls (runDecodeCall m c).2 cs

/-! ## Helper lemmas -/

/-- Every single decoding entry point returns the model unchanged. -/
theorem runDecodeCall_snd (m : CtcModel) (c : DecodeCall) : (runDecodeCall m c).2 = m := by
  cases c <;> rfl

/-- Saving on top of the retained suffix is the same as retaining the suffix
of everything saved so far. -/
theorem lastK_append_singleton {α : Type} (k : Nat) (l : List α) (y : α) :
    lastK k (lastK k l ++ [y]) = lastK k (l ++ [y]) := by
  unfold lastK
  rcases le_or_lt l.length k with h | h
  · have h0 : l.length - k = 0 := by omega
    simp [h0]
  · rcases Nat.eq_zero_or_pos k with rfl | hk
    · simp [List.drop_length]
    · have hd : (l.drop (l.length - k)).length = l.length - (l.length - k) :=
        List.length_drop _ _
      have h1 : (l.drop (l.length - k) ++ [y]).length - k = 1 := by
        rw [List.length_append, hd]
        show l.length - (l.length - k) + 1 - k = 1
        omega
      have h2 : (l ++ [y]).length - k = l.length + 1 - k := by simp
      have h3 : 1 ≤ (l.drop (l.length - k)).length := by
        rw [hd]
        omega
      have h4 : l.length + 1 - k ≤ l.length := by omega
      have h5 : l.length - k + 1 = l.length + 1 - k := by omega
      rw [h1, h2, List.drop_append_of_le_length h3, List.drop_append_of_le_length h4,
        List.drop_drop, h5]

/-- The fold of save-and-prune keeps exactly the last `k` checkpoints. -/
theorem saveAll_eq_lastK (k : Nat) (cs : List Nat) : saveAll k cs = lastK k cs := by
  induction cs using List.reverseRecOn with
  | nil => simp [saveAll, lastK]
  | append_singleton l a ih =>
    show (l ++ [a]).foldl (saveCheckpoint k) [] = _
    rw [List.foldl_append]
    show saveCheckpoint k (saveAll k l) a = lastK k (l ++ [a])
    rw [show saveAll k l = lastK k l from ih]
    exact lastK_append_singleton k l a

/-- Looking up the first index of a vocabulary token recovers the token. -/
theorem getElem?_indexOfTok (vocab : List String) (t : String) (h : t ∈ vocab) :
    vocab[indexOfTok vocab t]? = some t := by
  induction vocab with
  | nil => cases h
  | cons v vs ih =>
    by_cases hv : v = t
    · simp [indexOfTok, hv]
    · rcases List.mem_cons.mp h with rfl | ht
      · exact (hv rfl).elim
      · simp [indexOfTok, hv, ih ht]

/-- A vocabulary token's id is inside `[0, num_classes)`. -/
theorem indexOfTok_lt_length (vocab : List String) (t : String) (h : t ∈ vocab) :
    indexOfTok vocab t < num_classes vocab := by
  induction vocab with
  | nil => cases h
  | cons v vs ih =>
    by_cases hv : v = t
    · simp [indexOfTok, hv, num_classes]
    · rcases List.mem_cons.mp h with rfl | ht
      · exact (hv rfl).elim
      · have hlt := ih ht
        simp only [indexOfTok, hv, if_false, num_classes, List.length_cons] at *
        omega

/-- On a duplicate-free vocabulary, the id of the token at position `n`
is `n`: the token-to-id map inverts the id-to-token map. -/
theorem indexOfTok_getElem (vocab : List String) :
    vocab.Nodup → ∀ (n : Nat) (hn : n < vocab.length), indexOfTok vocab vocab[n] = n := by
  induction vocab with
  | nil =>
    intro _ n hn
    exact absurd hn (by simp)
  | cons v vs ih =>
    intro hnd n hn
    cases n with
    | zero => simp [indexOfTok]
    | succ n2 =>
      have hn2 : n2 < vs.length := by simpa using hn
      have hmem : vs[n2] ∈ vs := List.getElem_mem hn2
      have hv : v ≠ vs[n2] := by
        intro hEq
        exact (List.nodup_cons.mp hnd).1 (hEq ▸ hmem)
      show indexOfTok (v :: vs) vs[n2] = n2 + 1
      simp [indexOfTok, hv, ih (List.nodup_cons.mp hnd).2 n2 hn2]

/-- Decoding inverts encoding on texts made of vocabulary tokens. -/
theorem decodeIds_encode (vocab : List String) (text : List String)
    (hall : ∀ t, t ∈ text → t ∈ vocab) :
    decodeIds vocab (encode vocab text) = some text := by
  induction text with
  | nil => rfl
  | cons t ts ih =>
    have ht : t ∈ vocab := hall t (by simp)
    have hts := ih (fun x hx => hall x (by simp [hx]))
    show decodeIds vocab (indexOfTok vocab t :: encode vocab ts) = some (t :: ts)
    simp [decodeIds, getElem?_indexOfTok vocab t ht, hts]

/-! ## Claims -/

/-- Claim C1, counterexample: the claim quantifies over every run of the
training driver, but in a run with `--tfrecords` set the train dataset is
constructed from `train_paths`, not from `eval_paths`. -/
theorem every_run_eval_paths_cex :
    (buildDatasets true ⟨["train.tsv"], ["eval.tsv"], "tfdir"⟩ "augs").1.data_paths ≠
      (⟨["train.tsv"], ["eval.tsv"], "tfdir"⟩ : DatasetConfig).eval_paths := by
  decide

/-- Claim C1 (amended): in the non-tfrecords branch of the training script
both the train dataset and the eval dataset are constructed from the
configuration's `eval_paths` (the train dataset is passed `eval_paths` rather
than `train_paths`); in the tfrecords branch the train dataset uses
`train_paths` and the eval dataset `eval_paths`. -/
theorem datasets_data_paths_by_branch (ds : DatasetConfig) (augs : String) :
    (buildDatasets false ds augs).1.data_paths = ds.eval_paths ∧
    (buildDatasets false ds augs).2.data_paths = ds.eval_paths ∧
    (buildDatasets true ds augs).1.data_paths = ds.train_paths ∧
    (buildDatasets true ds augs).2.data_paths = ds.eval_paths :=
  ⟨rfl, rfl, rfl, rfl⟩

/-- Claim C2: per key, the merged configuration takes the override's value
when the key is present in the override and the default's value otherwise,
and a missing override file yields the defaults. -/
theorem userConfig_merge_spec {V : Type} (d ov : List (String × V)) (k : String) :
    (∀ v, lookupKey ov k = some v → UserConfig d (some ov) k = some v) ∧
    (lookupKey ov k = none → UserConfig d (some ov) k = lookupKey d k) ∧
    UserConfig d none k = lookupKey d k := by
  refine ⟨?_, ?_, rfl⟩
  · intro v hv
    simp [UserConfig, hv]
  · intro hv
    simp [UserConfig, hv]

/-- Witness for claim C2 at a concrete default/override pair. -/
theorem userConfig_merge_spec_witness :
    UserConfig [("lr", 1), ("bs", 2)] (some [("lr", 9)]) "lr" = some 9 ∧
    UserConfig [("lr", 1), ("bs", 2)] (some [("lr", 9)]) "bs" = some 2 ∧
    UserConfig ([("lr", 1)] : List (String × Nat)) none "lr" = some 1 :=
  ⟨(userConfig_merge_spec [("lr", 1), ("bs", 2)] [("lr", 9)] "lr").1 9 rfl,
   (userConfig_merge_spec [("lr", 1), ("bs", 2)] [("lr", 9)] "bs").2.1 rfl,
   (userConfig_merge_spec [("lr", 1)] [] "lr").2.2⟩

/-- Claim C8: every decoding entry point returns the model state unchanged,
so any sequence of decoding calls observes the same model state. -/
theorem decode_calls_preserve_model_state (m : CtcModel) (calls : List DecodeCall) :
    runDecodeCalls m calls = m ∧ ∀ c, (runDecodeCall m c).2 = m := by
  constructor
  · induction calls with
    | nil => rfl
    | cons c cs ih =>
      show runDecodeCalls (runDecodeCall m c).2 cs = m
      rw [runDecodeCall_snd m c]
      exact ih
  · exact runDecodeCall_snd m

/-- Claim C9: the non-tfrecords branch builds the eval dataset with stage
`"train"` and `shuffle=True`, the tfrecords branch with stage `"eval"` and
`shuffle=False`; the two branches disagree on both. -/
theorem eval_dataset_stage_shuffle_branches (ds : DatasetConfig) (augs : String) :
    (buildDatasets false ds augs).2.stage = "train" ∧
    (buildDatasets false ds augs).2.shuffle = true ∧
    (buildDatasets true ds augs).2.stage = "eval" ∧
    (buildDatasets true ds augs).2.shuffle = false ∧
    (buildDatasets false ds augs).2.stage ≠ (buildDatasets true ds augs).2.stage ∧
    (buildDatasets false ds augs).2.shuffle ≠ (buildDatasets true ds augs).2.shuffle :=
  ⟨rfl, rfl, rfl, rfl, (by decide : ("train" : String) ≠ "eval"),
   (by decide : true ≠ false)⟩

/-- Claim C3: for every text made solely of vocabulary tokens,
`decode(encode(text)) == text`; the token-to-id mapping is a bijection over
`[0, num_classes)` (two-sided inverse on a duplicate-free vocabulary); and on
the example vocabulary `["<blank>", "a", "b"]` with blank at index 0,
`encode("ab") == [1, 2]` and `decode([1, 2]) == "ab"`. -/
theorem encode_decode_roundtrip_bijection (vocab text : List String)
    (hnd : vocab.Nodup) (htext : ∀ t, t ∈ text → t ∈ vocab) :
    decodeIds vocab (encode vocab text) = some text ∧
    (∀ (n : Nat) (hn : n < vocab.length), indexOfTok vocab vocab[n] = n) ∧
    (∀ t, t ∈ vocab → indexOfTok vocab t < num_classes vocab ∧
      vocab[indexOfTok vocab t]? = some t) ∧
    encode ["<blank>", "a", "b"] ["a", "b"] = [1, 2] ∧
    decodeIds ["<blank>", "a", "b"] [1, 2] = some ["a", "b"] := by
  refine ⟨decodeIds_encode vocab text htext, indexOfTok_getElem vocab hnd, ?_, by decide,
    by decide⟩
  intro t ht
  exact ⟨indexOfTok_lt_length vocab t ht, getElem?_indexOfTok vocab t ht⟩

/-- Witness for claim C3 at the spec's example vocabulary and text. -/
theorem encode_decode_roundtrip_bijection_witness :
    decodeIds ["<blank>", "a", "b"] (encode ["<blank>", "a", "b"] ["a", "b"]) =
      some ["a", "b"] :=
  (encode_decode_roundtrip_bijection ["<blank>", "a", "b"] ["a", "b"] (by decide)
    (by decide)).1

/-- Claim C4: after `N` checkpoint saves with `max_ckpts = k ≥ 1`, exactly
`min(N, k)` checkpoints remain, namely the most recent ones (`drop (N - k)`
keeps all `N` when `N ≤ k` and the last `k` otherwise); in particular with
`max_ckpts = 2`, after saving `ckpt-1, ckpt-2, ckpt-3` only `ckpt-2, ckpt-3`
remain. -/
theorem checkpoint_pruning_spec (N k : Nat) (hk : 1 ≤ k) :
    (saveAll k (ckptNames N)).length = min N k ∧
    saveAll k (ckptNames N) = (ckptNames N).drop (N - k) ∧
    saveAll 2 (ckptNames 3) = [2, 3] := by
  have hlen : (ckptNames N).length = N := by simp [ckptNames]
  refine ⟨?_, ?_, by decide⟩
  · rw [saveAll_eq_lastK]
    unfold lastK
    rw [List.length_drop, hlen]
    omega
  · rw [saveAll_eq_lastK]
    unfold lastK
    rw [hlen]

/-- Witness for claim C4 at `N = 3`, `k = 2`. -/
theorem checkpoint_pruning_spec_witness :
    (saveAll 2 (ckptNames 3)).length = min 3 2 ∧
    saveAll 2 (ckptNames 3) = (ckptNames 3).drop (3 - 2) :=
  ⟨(checkpoint_pruning_spec 3 2 (by decide)).1, (checkpoint_pruning_spec 3 2 (by decide)).2.1⟩

/-- Claim C5: for the `type=bool` flags `--mixed_precision`, `--save_weights`
and `--tfrecords`, any non-empty supplied string — including the literal
string `"False"` — parses to `True` (Python's `bool()` of a non-empty string),
while an empty string or omitting the flag yields `False`. -/
theorem bool_flag_nonempty_string_true (s : String) (hs : s ≠ "") :
    parseArgs [("--mixed_precision", s)] = some { defaultArgs with mixed_precision := true } ∧
    parseArgs [("--save_weights", s)] = some { defaultArgs with save_weights := true } ∧
    parseArgs [("--tfrecords", s)] = some { defaultArgs with tfrecords := true } ∧
    parseArgs [("--mixed_precision", "False")] =
      some { defaultArgs with mixed_precision := true } ∧
    parseArgs [("--mixed_precision", "")] = some defaultArgs ∧
    parseArgs [] = some defaultArgs := by
  have hb : pyBool s = true := by simpa [pyBool] using hs
  have h1 : parseArgs [("--mixed_precision", s)] =
      some { defaultArgs with mixed_precision := pyBool s } := rfl
  have h2 : parseArgs [("--save_weights", s)] =
      some { defaultArgs with save_weights := pyBool s } := rfl
  have h3 : parseArgs [("--tfrecords", s)] =
      some { defaultArgs with tfrecords := pyBool s } := rfl
  rw [hb] at h1 h2 h3
  exact ⟨h1, h2, h3, by decide, by decide, rfl⟩

/-- Witness for claim C5 at the literal string value `"False"`. -/
theorem bool_flag_nonempty_string_true_witness :
    parseArgs [("--mixed_precision", "False")] =
      some { defaultArgs with mixed_precision := true } :=
  (bool_flag_nonempty_string_true "False" (by decide)).1

/-- Claim C10: every run of the training driver sets the global seed to the
fixed constant 2020 — it is the only seed ever set, it is set at position 4 of
the trace, before the dataset construction and model build events — and two
runs with identical arguments and configuration draw identical random
sequences from the seeded generator. -/
theorem seed_fixed_2020 (args : Args) (ds : DatasetConfig) (augs : String) :
    seedEvents (mainTrace args ds augs) = [2020] ∧
    (mainTrace args ds augs).get? 4 = some (Ev.setSeed 2020) ∧
    (∃ j, 4 < j ∧ (mainTrace args ds augs).get? j =
      some (Ev.constructDatasets (buildDatasets args.tfrecords ds augs).1
        (buildDatasets args.tfrecords ds augs).2)) ∧
    ∀ (args2 : Args) (ds2 : DatasetConfig) (augs2 : String),
      args2 = args → ds2 = ds → augs2 = augs →
      runRandomSequence args2 ds2 augs2 = runRandomSequence args ds augs := by
  refine ⟨?_, rfl, ?_, ?_⟩
  · cases hm : args.mixed_precision <;> cases he : args.export_ <;>
      cases hs : args.save_weights <;>
      simp [mainTrace, seedEvents, hm, he, hs, List.filterMap_append]
  · cases hm : args.mixed_precision
    · exact ⟨5, by omega, by simp [mainTrace, hm]⟩
    · exact ⟨6, by omega, by simp [mainTrace, hm]⟩
  · intro args2 ds2 augs2 h1 h2 h3
    subst h1
    subst h2
    subst h3
    rfl

/-- Witness for claim C10 at a concrete argument record and configuration. -/
theorem seed_fixed_2020_witness :
    seedEvents (mainTrace defaultArgs ⟨["t.tsv"], ["e.tsv"], "tfdir"⟩ "noise") = [2020] ∧
    runRandomSequence defaultArgs ⟨["t.tsv"], ["e.tsv"], "tfdir"⟩ "noise" =
      runRandomSequence defaultArgs ⟨["t.tsv"], ["e.tsv"], "tfdir"⟩ "noise" :=
  ⟨(seed_fixed_2020 defaultArgs ⟨["t.tsv"], ["e.tsv"], "tfdir"⟩ "noise").1,
   (seed_fixed_2020 defaultArgs ⟨["t.tsv"], ["e.tsv"], "tfdir"⟩ "noise").2.2.2
     defaultArgs ⟨["t.tsv"], ["e.tsv"], "tfdir"⟩ "noise" rfl rfl rfl⟩

/-- Claim C7: `compute_feature_dim` is a pure, idempotent function of the
configuration — the call leaves the featurizer unchanged and a repeated call
returns the same pair — and the pair equals the frequency-bin and channel
dimensions of every frame of the tensor `extract` produces on any signal. -/
theorem compute_feature_dim_pure_matches_extract (st : TFSpeechFeaturizer)
    (signal : List Int) :
    (compute_feature_dim_call st).2 = st ∧
    (compute_feature_dim_call ((compute_feature_dim_call st).2)).1 =
      (compute_feature_dim_call st).1 ∧
    ∀ frame, frame ∈ extract st.config signal →
      frame.length = (compute_feature_dim st.config).1 ∧
      ∀ bin, bin ∈ frame → bin.length = (compute_feature_dim st.config).2 := by
  refine ⟨rfl, rfl, ?_⟩
  intro frame hf
  simp only [extract] at hf
  rcases List.mem_map.mp hf with ⟨fr, hfr, rfl⟩
  constructor
  · simp [compute_feature_dim]
  · intro bin hb
    rcases List.mem_map.mp hb with ⟨j, hj, rfl⟩
    simp [compute_feature_dim]

/-- Witness for claim C7 at a concrete configuration and signal: with
`sample_rate=1000`, `frame_ms=2`, `stride_ms=1`, `num_feature_bins=2` and no
optional streams, the first frame of `extract` on signal `[3, 4, 5]` has 2
frequency bins. -/
theorem compute_feature_dim_pure_matches_extract_witness :
    ([[(7 : Int)], [8]] : List (List Int)).length =
      (compute_feature_dim ⟨1000, 2, 1, 2, false, false, false⟩).1 :=
  ((compute_feature_dim_pure_matches_extract ⟨⟨1000, 2, 1, 2, false, false, false⟩⟩
    [3, 4, 5]).2.2 [[(7 : Int)], [8]] (by decide)).1

/-- Applying one flag leaves every field owned by a different flag unchanged. -/
theorem applyArg_preserves (a r : Args) (f v : String) (h : applyArg a f v = some r) :
    (¬(f = "--config" ∨ f = "-c") → r.config = a.config) ∧
    (¬(f = "--export" ∨ f = "-e") → r.export_ = a.export_) ∧
    (f ≠ "--mixed_precision" → r.mixed_precision = a.mixed_precision) ∧
    (f ≠ "--save_weights" → r.save_weights = a.save_weights) ∧
    (f ≠ "--max_ckpts" → r.max_ckpts = a.max_ckpts) ∧
    (f ≠ "--eval_train_ratio" → r.eval_train_ratio = a.eval_train_ratio) ∧
    (f ≠ "--tfrecords" → r.tfrecords = a.tfrecords) := by
  unfold applyArg at h
  split_ifs at h with h1 h2 h3 h4 h5 h6 h7
  · injection h with h0
    subst h0
    exact ⟨fun hx => absurd h1 hx, fun _ => rfl, fun _ => rfl, fun _ => rfl, fun _ => rfl,
      fun _ => rfl, fun _ => rfl⟩
  · injection h with h0
    subst h0
    exact ⟨fun _ => rfl, fun hx => absurd h2 hx, fun _ => rfl, fun _ => rfl, fun _ => rfl,
      fun _ => rfl, fun _ => rfl⟩
  · injection h with h0
    subst h0
    exact ⟨fun _ => rfl, fun _ => rfl, fun hx => absurd h3 hx, fun _ => rfl, fun _ => rfl,
      fun _ => rfl, fun _ => rfl⟩
  · injection h with h0
    subst h0
    exact ⟨fun _ => rfl, fun _ => rfl, fun _ => rfl, fun hx => absurd h4 hx, fun _ => rfl,
      fun _ => rfl, fun _ => rfl⟩
  · rcases Option.map_eq_some'.mp h with ⟨n, hn, h0⟩
    subst h0
    exact ⟨fun _ => rfl, fun _ => rfl, fun _ => rfl, fun _ => rfl, fun hx => absurd h5 hx,
      fun _ => rfl, fun _ => rfl⟩
  · rcases Option.map_eq_some'.mp h with ⟨n, hn, h0⟩
    subst h0
    exact ⟨fun _ => rfl, fun _ => rfl, fun _ => rfl, fun _ => rfl, fun _ => rfl,
      fun hx => absurd h6 hx, fun _ => rfl⟩
  · injection h with h0
    subst h0
    exact ⟨fun _ => rfl, fun _ => rfl, fun _ => rfl, fun _ => rfl, fun _ => rfl,
      fun _ => rfl, fun hx => absurd h7 hx⟩

/-- A flag never supplied on the command line keeps its starting value
through the whole parse. -/
theorem parseArgsFrom_omits (l : List (String × String)) :
    ∀ (a r : Args), parseArgsFrom a l = some r →
      (("--config" ∉ l.map Prod.fst ∧ "-c" ∉ l.map Prod.fst) → r.config = a.config) ∧
      (("--export" ∉ l.map Prod.fst ∧ "-e" ∉ l.map Prod.fst) → r.export_ = a.export_) ∧
      ("--mixed_precision" ∉ l.map Prod.fst → r.mixed_precision = a.mixed_precision) ∧
      ("--save_weights" ∉ l.map Prod.fst → r.save_weights = a.save_weights) ∧
      ("--max_ckpts" ∉ l.map Prod.fst → r.max_ckpts = a.max_ckpts) ∧
      ("--eval_train_ratio" ∉ l.map Prod.fst → r.eval_train_ratio = a.eval_train_ratio) ∧
      ("--tfrecords" ∉ l.map Prod.fst → r.tfrecords = a.tfrecords) := by
  induction l with
  | nil =>
    intro a r h
    injection h with h0
    subst h0
    exact ⟨fun _ => rfl, fun _ => rfl, fun _ => rfl, fun _ => rfl, fun _ => rfl,
      fun _ => rfl, fun _ => rfl⟩
  | cons p rest ih =>
    intro a r h
    obtain ⟨f, v⟩ := p
    rcases happ : applyArg a f v with _ | a2
    · simp [parseArgsFrom, happ] at h
    · simp only [parseArgsFrom, happ] at h
      have hp := applyArg_preserves a a2 f v happ
      have hi := ih a2 r h
      refine ⟨?_, ?_, ?_, ?_, ?_, ?_, ?_⟩
      · rintro ⟨hc1, hc2⟩
        simp only [List.map_cons, List.mem_cons, not_or] at hc1 hc2
        rw [hi.1 ⟨hc1.2, hc2.2⟩]
        exact hp.1 (fun hor => hor.elim (fun e => hc1.1 e.symm) (fun e => hc2.1 e.symm))
      · rintro ⟨hc1, hc2⟩
        simp only [List.map_cons, List.mem_cons, not_or] at hc1 hc2
        rw [hi.2.1 ⟨hc1.2, hc2.2⟩]
        exact hp.2.1 (fun hor => hor.elim (fun e => hc1.1 e.symm) (fun e => hc2.1 e.symm))
      · intro hc
        simp only [List.map_cons, List.mem_cons, not_or] at hc
        rw [hi.2.2.1 hc.2]
        exact hp.2.2.1 (fun e => hc.1 e.symm)
      · intro hc
        simp only [List.map_cons, List.mem_cons, not_or] at hc
        rw [hi.2.2.2.1 hc.2]
        exact hp.2.2.2.1 (fun e => hc.1 e.symm)
      · intro hc
        simp only [List.map_cons, List.mem_cons, not_or] at hc
        rw [hi.2.2.2.2.1 hc.2]
        exact hp.2.2.2.2.1 (fun e => hc.1 e.symm)
      · intro hc
        simp only [List.map_cons, List.mem_cons, not_or] at hc
        rw [hi.2.2.2.2.2.1 hc.2]
        exact hp.2.2.2.2.2.1 (fun e => hc.1 e.symm)
      · intro hc
        simp only [List.map_cons, List.mem_cons, not_or] at hc
        rw [hi.2.2.2.2.2.2 hc.2]
        exact hp.2.2.2.2.2.2 (fun e => hc.1 e.symm)

/-- Claim C6: the training script's CLI accepts exactly the flags
`--config` (`-c`), `--export` (`-e`), `--mixed_precision`, `--save_weights`,
`--max_ckpts`, `--eval_train_ratio` and `--tfrecords`, the parse of an empty
command line yields the declared defaults (bundled YAML, no export path,
`False`, `False`, `10`, `1`, `False`), and each flag keeps its default in any
parse that omits it. -/
theorem cli_flags_and_defaults (l : List (String × String)) (a : Args) :
    parseArgs [] = some (Args.mk DEFAULT_YAML none false false 10 1 false) ∧
    (∀ (a0 r : Args) (f v : String), applyArg a0 f v = some r → f ∈ acceptedFlags) ∧
    (∀ f, f ∈ acceptedFlags → ∃ r, applyArg defaultArgs f "1" = some r) ∧
    (parseArgs l = some a →
      (("--config" ∉ l.map Prod.fst ∧ "-c" ∉ l.map Prod.fst) → a.config = DEFAULT_YAML) ∧
      (("--export" ∉ l.map Prod.fst ∧ "-e" ∉ l.map Prod.fst) → a.export_ = none) ∧
      ("--mixed_precision" ∉ l.map Prod.fst → a.mixed_precision = false) ∧
      ("--save_weights" ∉ l.map Prod.fst → a.save_weights = false) ∧
      ("--max_ckpts" ∉ l.map Prod.fst → a.max_ckpts = 10) ∧
      ("--eval_train_ratio" ∉ l.map Prod.fst → a.eval_train_ratio = 1) ∧
      ("--tfrecords" ∉ l.map Prod.fst → a.tfrecords = false)) := by
  refine ⟨rfl, ?_, ?_, ?_⟩
  · intro a0 r f v h
    unfold applyArg at h
    split_ifs at h with h1 h2 h3 h4 h5 h6 h7
    · rcases h1 with rfl | rfl <;> simp [acceptedFlags]
    · rcases h2 with rfl | rfl <;> simp [acceptedFlags]
    · subst h3
      simp [acceptedFlags]
    · subst h4
      simp [acceptedFlags]
    · subst h5
      simp [acceptedFlags]
    · subst h6
      simp [acceptedFlags]
    · subst h7
      simp [acceptedFlags]
  · intro f hf
    simp only [acceptedFlags, List.mem_cons, List.not_mem_nil, or_false] at hf
    rcases hf with rfl | rfl | rfl | rfl | rfl | rfl | rfl | rfl | rfl
    · exact ⟨_, rfl⟩
    · exact ⟨_, rfl⟩
    · exact ⟨_, rfl⟩
    · exact ⟨_, rfl⟩
    · exact ⟨_, rfl⟩
    · exact ⟨_, rfl⟩
    · exact ⟨_, rfl⟩
    · exact ⟨_, rfl⟩
    · exact ⟨_, rfl⟩
  · intro hp
    exact parseArgsFrom_omits l defaultArgs a hp

/-- Witness for claim C6: parse of `--max_ckpts 3` — the flag is accepted and
every omitted flag keeps its default. -/
theorem cli_flags_and_defaults_witness :
    "--max_ckpts" ∈ acceptedFlags ∧
    ({ defaultArgs with max_ckpts := 3 } : Args).tfrecords = false :=
  ⟨(cli_flags_and_defaults [] defaultArgs).2.1 defaultArgs
     { defaultArgs with max_ckpts := 3 } "--max_ckpts" "3" rfl,
   ((cli_flags_and_defaults [("--max_ckpts", "3")]
       { defaultArgs with max_ckpts := 3 }).2.2.2 rfl).2.2.2.2.2.2 (by decide)⟩
